import Mathlib

/-!
# RetroBell call-control subsystem: a shallow embedding

This file embeds, in Lean, the call-control core of the RetroBell
firmware: the phone state machine (`State.cpp`/`State.h`), the ESP-NOW
signaling layer (`Network.cpp`/`Network.h`), the hook-switch debouncer
(`HookSwitch.cpp`) and the rotary-dial pulse decoder (`RotaryDial.cpp`).

Modelling conventions:
* phone numbers are `Int` (`-1` is the "no peer"/broadcast sentinel, as
  in the C++ code);
* transport (MAC) addresses are abstracted to `Nat` tokens compared for
  equality (the C++ `memcmp` over 6 bytes);
* `millis()` timestamps are `Nat` milliseconds (the firmware's unsigned
  arithmetic never wraps in the scenarios modelled, and all subtractions
  are of the form `now - earlier`);
* calls into the ESP-NOW driver (`esp_now_add_peer`, `esp_now_send`)
  are external collaborators: their success is passed in as a `Bool`
  parameter where the C++ code inspects the result, and each invocation
  of `esp_now_send` is recorded in an output list of
  (destination MAC, message) pairs;
* `Serial` logging and audio playback have no effect on the modelled
  state and are dropped.
-/

namespace RetroBell

/-- `PhoneState` from `State.h`. -/
inductive PhoneState where
  | IDLE
  | OFF_HOOK
  | DIALING
  | CALLING
  | RINGING
  | IN_CALL
  | CALL_FAILED
  | CALL_BUSY
  deriving DecidableEq, Repr

/-- `MessageType` from `Network.h`.  `MSG_CALL_BUSY` is referenced by
`Network.cpp` (`sendCallBusy`, `handleIncomingMessage`) and is therefore
part of the compiled firmware even though the header snapshot omits it. -/
inductive MessageType where
  | MSG_DISCOVERY
  | MSG_CALL_REQUEST
  | MSG_CALL_ACCEPT
  | MSG_CALL_REJECT
  | MSG_CALL_END
  | MSG_AUDIO_DATA
  | MSG_CALL_BUSY
  deriving DecidableEq, Repr

/-- The signaling `Message` struct from `Network.h`.  The 200-byte
`data` payload carries only audio and never influences call control, so
it is not modelled. -/
structure Message where
  type : MessageType
  fromNumber : Int
  toNumber : Int
  deriving DecidableEq, Repr

/-- `PeerInfo` from `Network.cpp`. -/
structure PeerInfo where
  number : Int
  macAddress : Nat
  registered : Bool
  deriving DecidableEq, Repr

/-- `MAX_PEERS` from `Network.cpp`. -/
def MAX_PEERS : Nat := 10

/-- The mutable globals of `State.cpp` and `Network.cpp` that call
control touches: `currentState`, `currentCallPeer`, and the
`peers` array together with `peerCount` (modelled as a list of length
`peerCount`). -/
structure NetState where
  phoneState : PhoneState
  currentCallPeer : Int
  peers : List PeerInfo
  deriving DecidableEq, Repr

/-- `changeState` from `State.cpp`: writes the new state, with an early
return when it already holds (the early return only skips the log). -/
def changeState (newState cur : PhoneState) : PhoneState :=
  if newState = cur then cur else newState

/-- The update loop of `addPeerByMac` (`Network.cpp` lines 168-178):
scan for an existing entry with the same MAC; on the first hit, set its
number to `num` and stop.  Returns `none` when no entry has that MAC. -/
def updatePeerNumber (mac : Nat) (num : Int) : List PeerInfo → Option (List PeerInfo)
  | [] => none
  | p :: ps =>
    if p.macAddress = mac then
      some ({ p with number := num } :: ps)
    else
      match updatePeerNumber mac num ps with
      | some ps' => some (p :: ps')
      | none => none

/-- `addPeerByMac` from `Network.cpp`: upsert keyed by MAC address.
`espAddOk` is the result of the external `esp_now_add_peer` call; when
it fails the function returns without storing the peer. -/
def addPeerByMac (espAddOk : Bool) (mac : Nat) (num : Int) (peers : List PeerInfo) : List PeerInfo :=
  match updatePeerNumber mac num peers with
  | some peers' => peers'
  | none =>
    if MAX_PEERS ≤ peers.length then peers
    else if espAddOk then peers ++ [⟨num, mac, true⟩] else peers

/-- The lookup loop shared by `sendCallRequest`, `sendCallAccept`,
`sendCallBusy`, `sendCallEnd` and `sendAudioData`: first entry that is
`registered` and carries `num`. -/
def findPeer (num : Int) : List PeerInfo → Option PeerInfo
  | [] => none
  | p :: ps => if p.registered ∧ p.number = num then some p else findPeer num ps

/-- `sendCallBusy` from `Network.cpp`: if the target number is in the
directory, hand one `MSG_CALL_BUSY` to the transport; otherwise do
nothing.  Touches neither the state nor `currentCallPeer`. -/
def sendCallBusy (self target : Int) (peers : List PeerInfo) : List (Nat × Message) :=
  match findPeer target peers with
  | some p => [(p.macAddress, ⟨.MSG_CALL_BUSY, self, target⟩)]
  | none => []

/-- `sendCallAccept` from `Network.cpp`: if the target is in the
directory, send `MSG_CALL_ACCEPT` and record it as `currentCallPeer`. -/
def sendCallAccept (self target : Int) (st : NetState) : NetState × List (Nat × Message) :=
  match findPeer target st.peers with
  | some p => ({ st with currentCallPeer := target }, [(p.macAddress, ⟨.MSG_CALL_ACCEPT, self, target⟩)])
  | none => (st, [])

/-- `sendCallEnd` from `Network.cpp`: if the target is in the directory,
send `MSG_CALL_END` and clear `currentCallPeer`; if the target is not
found nothing is sent and the peer is left as it was. -/
def sendCallEnd (self target : Int) (st : NetState) : NetState × List (Nat × Message) :=
  match findPeer target st.peers with
  | some p => ({ st with currentCallPeer := -1 }, [(p.macAddress, ⟨.MSG_CALL_END, self, target⟩)])
  | none => (st, [])

/-- `sendCallRequest` from `Network.cpp`.  `sendOk` is the result of the
external `esp_now_send`.  Returns the new state, the C++ return value,
and the messages handed to the transport. -/
def sendCallRequest (self : Int) (sendOk : Bool) (target : Int) (st : NetState) :
    NetState × Bool × List (Nat × Message) :=
  match findPeer target st.peers with
  | some p =>
    if sendOk then
      ({ st with currentCallPeer := target }, true, [(p.macAddress, ⟨.MSG_CALL_REQUEST, self, target⟩)])
    else
      (st, false, [(p.macAddress, ⟨.MSG_CALL_REQUEST, self, target⟩)])
  | none => (st, false, [])

/-- `handleIncomingMessage` from `Network.cpp` (the ESP-NOW receive
callback), for a message that already passed the size check.  `self` is
`getPhoneNumber()`, `mac` the sender's address, `espAddOk` the result of
`esp_now_add_peer` inside the discovery branch.  Output: the new shared
state and the messages handed to the transport. -/
def handleIncomingMessage (espAddOk : Bool) (self : Int) (mac : Nat) (msg : Message)
    (st : NetState) : NetState × List (Nat × Message) :=
  match msg.type with
  | .MSG_DISCOVERY =>
      -- no toNumber check on this branch
      ({ st with peers := addPeerByMac espAddOk mac msg.fromNumber st.peers }, [])
  | .MSG_CALL_REQUEST =>
      if msg.toNumber ≠ self then (st, [])
      else if st.phoneState = .IN_CALL ∨ st.phoneState = .RINGING then
        (st, sendCallBusy self msg.fromNumber st.peers)
      else
        ({ st with currentCallPeer := msg.fromNumber,
                   phoneState := changeState .RINGING st.phoneState }, [])
  | .MSG_CALL_ACCEPT =>
      if msg.toNumber ≠ self then (st, [])
      else ({ st with phoneState := changeState .IN_CALL st.phoneState }, [])
  | .MSG_CALL_BUSY =>
      if msg.toNumber ≠ self then (st, [])
      else ({ st with currentCallPeer := -1,
                      phoneState := changeState .CALL_BUSY st.phoneState }, [])
  | .MSG_CALL_REJECT =>
      if msg.toNumber ≠ self then (st, [])
      else ({ st with phoneState := changeState .IDLE st.phoneState }, [])
  | .MSG_CALL_END =>
      if msg.toNumber ≠ self then (st, [])
      else ({ st with currentCallPeer := -1,
                      phoneState := changeState .IDLE st.phoneState }, [])
  | .MSG_AUDIO_DATA =>
      -- `writeAudioBuffer` plays audio; it touches none of the modelled state
      (st, [])

/-- The debounce variables of `HookSwitch.cpp`: `currentHookState`,
`lastHookState`, `lastDebounceTime`.  Levels are `Bool` with
`true = HIGH` (handset off the hook). -/
structure HookDebounce where
  currentHookState : Bool
  lastHookState : Bool
  lastDebounceTime : Nat
  deriving DecidableEq, Repr

/-- `debounceDelay` from `HookSwitch.cpp` (milliseconds). -/
def debounceDelay : Nat := 50

/-- One pass of the debounce logic of `handleHookSwitch`
(`HookSwitch.cpp` lines 55-93) on a raw `reading` sampled at `now`:
reset the debounce timer on any raw change, and once the reading has
been stable for strictly more than `debounceDelay` and differs from the
stable level, commit it and report the edge. -/
def hookStep (now : Nat) (reading : Bool) (d : HookDebounce) : HookDebounce × Option Bool :=
  let lastT := if reading ≠ d.lastHookState then now else d.lastDebounceTime
  if debounceDelay < now - lastT ∧ reading ≠ d.currentHookState then
    (⟨reading, reading, lastT⟩, some reading)
  else
    (⟨d.currentHookState, reading, lastT⟩, none)

/-- Run the debouncer over a list of timestamped raw samples, collecting
the stable-transition edges it reports. -/
def hookRun (d : HookDebounce) : List (Nat × Bool) → HookDebounce × List Bool
  | [] => (d, [])
  | (t, lvl) :: rest =>
    let s := hookStep t lvl d
    let r := hookRun s.1 rest
    (r.1, s.2.toList ++ r.2)

/-- The `LOW` (handset replaced) branch of `handleHookSwitch`
(`HookSwitch.cpp` lines 82-89): send `CallEnd` to `getCurrentCallPeer()`
when the state is `IN_CALL` or `CALLING`, then `changeState(IDLE)`
unconditionally. -/
def onHookReplaced (self : Int) (st : NetState) : NetState × List (Nat × Message) :=
  let r :=
    if st.phoneState = .IN_CALL ∨ st.phoneState = .CALLING then
      sendCallEnd self st.currentCallPeer st
    else (st, [])
  ({ r.1 with phoneState := changeState .IDLE r.1.phoneState }, r.2)

/-- The `HIGH` (handset lifted) branch of `handleHookSwitch`
(`HookSwitch.cpp` lines 68-79).  `startDialing()` touches only the dial
collector, which is not part of `NetState`. -/
def onHookLifted (self : Int) (st : NetState) : NetState × List (Nat × Message) :=
  if st.phoneState = .IDLE then
    ({ st with phoneState := changeState .OFF_HOOK st.phoneState }, [])
  else if st.phoneState = .RINGING then
    let r := sendCallAccept self st.currentCallPeer st
    ({ r.1 with phoneState := changeState .IN_CALL r.1.phoneState }, r.2)
  else (st, [])

/-- `handleHookSwitch` from `HookSwitch.cpp`: debounce the raw reading
and dispatch on the committed edge. -/
def handleHookSwitch (self : Int) (now : Nat) (reading : Bool) (d : HookDebounce)
    (st : NetState) : HookDebounce × NetState × List (Nat × Message) :=
  match hookStep now reading d with
  | (d', some true) => let r := onHookLifted self st; (d', r.1, r.2)
  | (d', some false) => let r := onHookReplaced self st; (d', r.1, r.2)
  | (d', none) => (d', st, [])

/-- The interrupt-side variables of `RotaryDial.cpp`: `pulseCount`,
`isDialing`, `digitReady`, `lastDialedDigit`, `dialingTimeout`,
`lastDialState` and the static `lastDialDebounce` of
`onDialInterrupt`.  Levels are `Bool` with `true = HIGH` (dial at
rest). -/
structure RotaryState where
  pulseCount : Nat
  isDialing : Bool
  digitReady : Bool
  lastDialedDigit : Int
  dialingTimeout : Nat
  lastDialState : Bool
  lastDialDebounce : Nat
  deriving DecidableEq, Repr

/-- `DIAL_DEBOUNCE_MS` from `RotaryDial.cpp`. -/
def DIAL_DEBOUNCE_MS : Nat := 50

/-- `onDialInterrupt` from `RotaryDial.cpp` (lines 82-118): the
active/shunt line interrupt.  On a debounced `LOW` edge while idle,
enter `Dialing` and reset the counter; on a debounced `HIGH` edge while
`Dialing` (dial returned to rest), leave `Dialing` and, when at least
one pulse was counted, latch the decoded digit and mark it ready. -/
def onDialInterrupt (now : Nat) (currentDialState : Bool) (r : RotaryState) : RotaryState :=
  if now - r.lastDialDebounce < DIAL_DEBOUNCE_MS then r
  else if currentDialState = r.lastDialState then r
  else
    let r1 := { r with lastDialDebounce := now }
    let r2 :=
      if ¬r1.isDialing ∧ currentDialState = false then
        { r1 with isDialing := true, pulseCount := 0, digitReady := false,
                  dialingTimeout := now }
      else if r1.isDialing ∧ currentDialState = true then
        let r3 := { r1 with isDialing := false }
        if 0 < r3.pulseCount then
          { r3 with digitReady := true,
                    lastDialedDigit := if r3.pulseCount = 10 then 0 else (r3.pulseCount : Int) }
        else r3
      else r1
    { r2 with lastDialState := currentDialState }

theorem changeState_eq (n s : PhoneState) : changeState n s = n := by
  unfold changeState; split <;> simp_all

/-- C1: the claim says a `CallAccept` addressed to this phone moves the
state machine to `InCall` only from `Calling` and is otherwise ignored.
The handler (`Network.cpp` lines 478-482) checks only `toNumber`; at the
failing input — local state `IDLE` (the user already hung up) and
`CallAccept{from := 102, to := 101}` — the phone is moved to `IN_CALL`
instead of ignoring the stale message. -/
theorem c1_stale_callaccept_not_ignored :
    (handleIncomingMessage true 101 5 ⟨.MSG_CALL_ACCEPT, 102, 101⟩
        ⟨.IDLE, -1, []⟩).1 = ⟨.IN_CALL, -1, []⟩
    ∧ PhoneState.IDLE ≠ PhoneState.CALLING := by decide

/-- C2 (counterexample): in state `CALLING` with a pending peer, a
`CallReject` addressed to this phone transitions to `IDLE`, not to
`CALL_FAILED` as the claim states. -/
theorem c2_callreject_goes_idle_cex :
    (handleIncomingMessage true 101 5 ⟨.MSG_CALL_REJECT, 102, 101⟩
        ⟨.CALLING, 102, [⟨102, 5, true⟩]⟩).1.phoneState = .IDLE
    ∧ PhoneState.IDLE ≠ PhoneState.CALL_FAILED := by decide

/-- C2 (amended): `CallReject` and `CallBusy` are processed whenever
`toNumber` equals this phone's number, with no check that the state is
still `Calling`; `CallReject` transitions to `Idle` leaving the recorded
call peer unchanged, and `CallBusy` clears the call peer and transitions
to `CallBusy`, in every current state. -/
theorem c2_reject_and_busy_processed_in_any_state (st : NetState) (self f : Int)
    (mac : Nat) (ok : Bool) :
    handleIncomingMessage ok self mac ⟨.MSG_CALL_REJECT, f, self⟩ st
      = ({ st with phoneState := .IDLE }, [])
    ∧ handleIncomingMessage ok self mac ⟨.MSG_CALL_BUSY, f, self⟩ st
      = ({ st with currentCallPeer := -1, phoneState := .CALL_BUSY }, []) := by
  constructor <;> simp [handleIncomingMessage, changeState_eq]

/-- C4: a `CallEnd` addressed to this phone clears the recorded call
peer and forces the state to `Idle` from every current state, and
delivering the same `CallEnd` a second time leaves the resulting state
untouched and sends nothing (processing `CallEnd` is idempotent). -/
theorem c4_callend_forces_idle_and_is_idempotent (st : NetState) (self f : Int)
    (mac : Nat) (ok : Bool) :
    handleIncomingMessage ok self mac ⟨.MSG_CALL_END, f, self⟩ st
      = ({ st with currentCallPeer := -1, phoneState := .IDLE }, [])
    ∧ handleIncomingMessage ok self mac ⟨.MSG_CALL_END, f, self⟩
        (handleIncomingMessage ok self mac ⟨.MSG_CALL_END, f, self⟩ st).1
      = ((handleIncomingMessage ok self mac ⟨.MSG_CALL_END, f, self⟩ st).1, []) := by
  constructor <;> simp [handleIncomingMessage, changeState_eq]

/-- C9 (counterexample): a `Discovery` message whose `toNumber` is 42 —
neither this phone's number 101 nor the broadcast sentinel -1 — is not
ignored: the discovery branch never checks `toNumber`, so the peer
directory is mutated. -/
theorem c9_discovery_ignores_tonumber_cex :
    (handleIncomingMessage true 101 5 ⟨.MSG_DISCOVERY, 102, 42⟩
        ⟨.IDLE, -1, []⟩).1 ≠ ⟨.IDLE, -1, []⟩
    ∧ (42 : Int) ≠ 101 ∧ (42 : Int) ≠ -1 := by decide

/-- C9 (amended): every non-`Discovery` incoming message whose
`toNumber` differs from this phone's number (broadcast or not) is a
complete no-op: the phone state, the recorded call peer and the peer
directory are unchanged and nothing is sent.  `Discovery` messages are
processed regardless of their `toNumber`. -/
theorem c9_foreign_nondiscovery_message_is_noop (st : NetState) (self : Int)
    (mac : Nat) (msg : Message) (ok : Bool)
    (htype : msg.type ≠ .MSG_DISCOVERY) (hto : msg.toNumber ≠ self) :
    handleIncomingMessage ok self mac msg st = (st, []) := by
  obtain ⟨t, f, tn⟩ := msg
  cases t <;> simp_all [handleIncomingMessage]

/-- C9 witness: a `CallEnd` addressed to number 42 received by phone 101
leaves an in-call state fully unchanged. -/
theorem c9_foreign_nondiscovery_message_is_noop_witness :
    (Message.type ⟨.MSG_CALL_END, 7, 42⟩ ≠ .MSG_DISCOVERY)
    ∧ (Message.toNumber ⟨.MSG_CALL_END, 7, 42⟩ ≠ 101)
    ∧ handleIncomingMessage true 101 5 ⟨.MSG_CALL_END, 7, 42⟩ ⟨.IN_CALL, 102, []⟩
        = (⟨.IN_CALL, 102, []⟩, []) :=
  ⟨by decide, by decide,
    c9_foreign_nondiscovery_message_is_noop ⟨.IN_CALL, 102, []⟩ 101 5
      ⟨.MSG_CALL_END, 7, 42⟩ true (by decide) (by decide)⟩

/-- C3 (counterexample): in `IN_CALL`, a `CallRequest` addressed to this
phone from a requester that is absent from the peer directory produces
no outgoing message at all — the busy reply is silently dropped — even
though state and call peer are indeed unchanged. -/
theorem c3_busy_reply_dropped_for_unknown_requester_cex :
    (handleIncomingMessage true 101 5 ⟨.MSG_CALL_REQUEST, 102, 101⟩
        ⟨.IN_CALL, 103, []⟩).2 = []
    ∧ (handleIncomingMessage true 101 5 ⟨.MSG_CALL_REQUEST, 102, 101⟩
        ⟨.IN_CALL, 103, []⟩).1 = ⟨.IN_CALL, 103, []⟩ := by decide

/-- C3 (amended): a `CallRequest` addressed to this phone while the
state is `Ringing` or `InCall` leaves the state and the recorded call
peer unchanged and answers with exactly one `CallBusy` when the
requester's number is in the peer directory; when the requester is
unknown, nothing is sent. -/
theorem c3_callrequest_while_busy_replies_busy (st : NetState) (self f : Int)
    (mac : Nat) (ok : Bool)
    (h : st.phoneState = .IN_CALL ∨ st.phoneState = .RINGING) :
    (handleIncomingMessage ok self mac ⟨.MSG_CALL_REQUEST, f, self⟩ st).1 = st
    ∧ (∀ p, findPeer f st.peers = some p →
        (handleIncomingMessage ok self mac ⟨.MSG_CALL_REQUEST, f, self⟩ st).2
          = [(p.macAddress, ⟨.MSG_CALL_BUSY, self, f⟩)])
    ∧ (findPeer f st.peers = none →
        (handleIncomingMessage ok self mac ⟨.MSG_CALL_REQUEST, f, self⟩ st).2 = []) := by
  refine ⟨?_, fun p hp => ?_, fun hp => ?_⟩
  · simp [handleIncomingMessage, h]
  · simp [handleIncomingMessage, h, sendCallBusy, hp]
  · simp [handleIncomingMessage, h, sendCallBusy, hp]

/-- C3 witness: phone 101 in `IN_CALL` with peer 103, requester 102
registered at MAC 6: the busy reply goes to MAC 6 and nothing else
changes. -/
theorem c3_callrequest_while_busy_replies_busy_witness :
    (NetState.phoneState ⟨.IN_CALL, 103, [⟨102, 6, true⟩]⟩ = .IN_CALL
      ∨ NetState.phoneState ⟨.IN_CALL, 103, [⟨102, 6, true⟩]⟩ = .RINGING)
    ∧ (handleIncomingMessage true 101 5 ⟨.MSG_CALL_REQUEST, 102, 101⟩
        ⟨.IN_CALL, 103, [⟨102, 6, true⟩]⟩).1 = ⟨.IN_CALL, 103, [⟨102, 6, true⟩]⟩
    ∧ (handleIncomingMessage true 101 5 ⟨.MSG_CALL_REQUEST, 102, 101⟩
        ⟨.IN_CALL, 103, [⟨102, 6, true⟩]⟩).2
        = [(6, ⟨.MSG_CALL_BUSY, 101, 102⟩)] := by
  have h := c3_callrequest_while_busy_replies_busy ⟨.IN_CALL, 103, [⟨102, 6, true⟩]⟩
    101 102 5 true (Or.inl rfl)
  exact ⟨Or.inl rfl, h.1, h.2.1 ⟨102, 6, true⟩ rfl⟩

/-- C10: `sendCallRequest` is atomic on error: with no registered
directory entry for the target it returns `false`, changes nothing and
sends nothing; whenever the transport send fails it returns `false` and
leaves the state unchanged; the recorded call peer is set to the target
exactly in the case where a matching entry is found and the transport
send succeeds. -/
theorem c10_sendcallrequest_atomic_on_error (st : NetState) (self target : Int)
    (ok : Bool) :
    (findPeer target st.peers = none →
        sendCallRequest self ok target st = (st, false, []))
    ∧ (ok = false → (sendCallRequest self ok target st).1 = st
        ∧ (sendCallRequest self ok target st).2.1 = false)
    ∧ (∀ p, findPeer target st.peers = some p → ok = true →
        sendCallRequest self ok target st
          = ({ st with currentCallPeer := target }, true,
             [(p.macAddress, ⟨.MSG_CALL_REQUEST, self, target⟩)])) := by
  refine ⟨fun hfp => ?_, fun hok => ?_, fun p hp hok => ?_⟩
  · simp [sendCallRequest, hfp]
  · unfold sendCallRequest
    cases hfp : findPeer target st.peers <;> simp [hok]
  · simp [sendCallRequest, hp, hok]

/-- C10 witness: target 102 absent from an empty directory ⇒ failure
with nothing changed; target registered and transport OK ⇒ peer
recorded. -/
theorem c10_sendcallrequest_atomic_on_error_witness :
    findPeer 102 (NetState.peers ⟨.DIALING, -1, []⟩) = none
    ∧ sendCallRequest 101 true 102 ⟨.DIALING, -1, []⟩ = (⟨.DIALING, -1, []⟩, false, [])
    ∧ sendCallRequest 101 true 102 ⟨.DIALING, -1, [⟨102, 6, true⟩]⟩
        = (⟨.DIALING, 102, [⟨102, 6, true⟩]⟩, true, [(6, ⟨.MSG_CALL_REQUEST, 101, 102⟩)]) := by
  refine ⟨rfl, (c10_sendcallrequest_atomic_on_error ⟨.DIALING, -1, []⟩ 101 102 true).1 rfl, ?_⟩
  have h := (c10_sendcallrequest_atomic_on_error ⟨.DIALING, -1, [⟨102, 6, true⟩]⟩
    101 102 true).2.2 ⟨102, 6, true⟩ rfl rfl
  exact h

/-- C5 (counterexample): hanging up while `RINGING` with recorded peer
102 — who is present and registered in the directory — sends no
`CallEnd` at all (the send is guarded by `IN_CALL`/`CALLING` only),
though the phone does return to `IDLE`. -/
theorem c5_ringing_hangup_sends_no_callend_cex :
    (onHookReplaced 101 ⟨.RINGING, 102, [⟨102, 5, true⟩]⟩).2 = []
    ∧ (onHookReplaced 101 ⟨.RINGING, 102, [⟨102, 5, true⟩]⟩).1.phoneState = .IDLE
    ∧ (onHookReplaced 101 ⟨.RINGING, 102, [⟨102, 5, true⟩]⟩).1.currentCallPeer = 102
    ∧ findPeer 102 [(⟨102, 5, true⟩ : PeerInfo)] = some ⟨102, 5, true⟩ := by decide

/-- C5 (amended): a debounced local hook-replace event leads to `Idle`
from every state; a `CallEnd` is sent to the recorded call peer only
when the current state is `InCall` or `Calling` and that peer has a
registered directory entry — from `Ringing`, `CallFailed` and
`CallBusy` no `CallEnd` is sent even when a peer is recorded. -/
theorem c5_hook_replace_always_idle (st : NetState) (self : Int) :
    (onHookReplaced self st).1.phoneState = .IDLE
    ∧ (st.phoneState ≠ .IN_CALL ∧ st.phoneState ≠ .CALLING →
        onHookReplaced self st = ({ st with phoneState := .IDLE }, []))
    ∧ (∀ p, (st.phoneState = .IN_CALL ∨ st.phoneState = .CALLING) →
        findPeer st.currentCallPeer st.peers = some p →
        onHookReplaced self st
          = ({ st with currentCallPeer := -1, phoneState := .IDLE },
             [(p.macAddress, ⟨.MSG_CALL_END, self, st.currentCallPeer⟩)])) := by
  refine ⟨?_, fun hne => ?_, fun p hin hp => ?_⟩
  · unfold onHookReplaced
    by_cases h : st.phoneState = .IN_CALL ∨ st.phoneState = .CALLING
    · simp only [if_pos h]
      unfold sendCallEnd
      cases hfp : findPeer st.currentCallPeer st.peers <;> simp [changeState_eq]
    · simp [if_neg h, changeState_eq]
  · have h : ¬ (st.phoneState = .IN_CALL ∨ st.phoneState = .CALLING) := by
      rcases hne with ⟨h1, h2⟩
      rintro (h | h) <;> simp_all
    simp [onHookReplaced, if_neg h, changeState_eq]
  · simp [onHookReplaced, if_pos hin, sendCallEnd, hp, changeState_eq]

/-- C5 witness: hanging up while `IN_CALL` with peer 102 registered at
MAC 5 returns to `IDLE` and sends exactly one `CallEnd` to MAC 5. -/
theorem c5_hook_replace_always_idle_witness :
    (NetState.phoneState ⟨.IN_CALL, 102, [⟨102, 5, true⟩]⟩ = .IN_CALL
      ∨ NetState.phoneState ⟨.IN_CALL, 102, [⟨102, 5, true⟩]⟩ = .CALLING)
    ∧ findPeer 102 [(⟨102, 5, true⟩ : PeerInfo)] = some ⟨102, 5, true⟩
    ∧ onHookReplaced 101 ⟨.IN_CALL, 102, [⟨102, 5, true⟩]⟩
        = (⟨.IDLE, -1, [⟨102, 5, true⟩]⟩, [(5, ⟨.MSG_CALL_END, 101, 102⟩)]) :=
  ⟨Or.inl rfl, rfl,
    (c5_hook_replace_always_idle ⟨.IN_CALL, 102, [⟨102, 5, true⟩]⟩ 101).2.2
      ⟨102, 5, true⟩ (Or.inl rfl) rfl⟩

theorem updatePeerNumber_eq_none (mac : Nat) (num : Int) (peers : List PeerInfo)
    (h : ∀ p ∈ peers, p.macAddress ≠ mac) :
    updatePeerNumber mac num peers = none := by
  induction peers with
  | nil => rfl
  | cons p ps ih =>
    have hp : p.macAddress ≠ mac := h p (by simp)
    have hps := ih fun q hq => h q (List.mem_cons_of_mem _ hq)
    simp [updatePeerNumber, hp, hps]

theorem findPeer_append_of_some (num : Int) (l l' : List PeerInfo) (p : PeerInfo)
    (h : findPeer num l = some p) : findPeer num (l ++ l') = some p := by
  induction l with
  | nil => simp [findPeer] at h
  | cons q qs ih =>
    by_cases hq : q.registered ∧ q.number = num
    · simp_all [findPeer]
    · simp only [findPeer, if_neg hq] at h
      simp [findPeer, if_neg hq, ih h]

/-- C6 (counterexample): the directory holds number 5 at MAC 1; the same
number 5 now reports from new MAC 2 (the "rebooted" transport address of
the claim).  The upsert — keyed by MAC, not number — appends a second
record instead of updating, and the lookup used by `sendCallRequest`
still resolves number 5 to the stale old MAC 1, not to the new MAC 2. -/
theorem c6_same_number_new_mac_stale_lookup_cex :
    addPeerByMac true 2 5 [⟨5, 1, true⟩] = [⟨5, 1, true⟩, ⟨5, 2, true⟩]
    ∧ findPeer 5 (addPeerByMac true 2 5 [⟨5, 1, true⟩]) = some ⟨5, 1, true⟩
    ∧ (1 : Nat) ≠ 2 := by decide

/-- C6 (amended): the upsert is keyed by the transport MAC address, not
the phone number.  For a MAC not yet in the directory: at capacity 10
the peer is rejected and the directory is unchanged; below capacity the
peer is appended as a new record, and when the directory already held a
registered record for the same number, a subsequent lookup of that
number still resolves to the old (stale) record. -/
theorem c6_upsert_mac_keyed_capacity_and_stale (peers : List PeerInfo) (mac : Nat)
    (num : Int) (ok : Bool) (hmac : ∀ p ∈ peers, p.macAddress ≠ mac) :
    (MAX_PEERS ≤ peers.length → addPeerByMac ok mac num peers = peers)
    ∧ (peers.length < MAX_PEERS →
        addPeerByMac true mac num peers = peers ++ [⟨num, mac, true⟩]
        ∧ ∀ p, findPeer num peers = some p →
            findPeer num (addPeerByMac true mac num peers) = some p) := by
  have hupd := updatePeerNumber_eq_none mac num peers hmac
  refine ⟨fun hfull => ?_, fun hroom => ?_⟩
  · simp [addPeerByMac, hupd, hfull]
  · have happ : addPeerByMac true mac num peers = peers ++ [⟨num, mac, true⟩] := by
      simp [addPeerByMac, hupd, Nat.not_le.mpr hroom]
    exact ⟨happ, fun p hp => by
      rw [happ]; exact findPeer_append_of_some num peers _ p hp⟩

/-- C6 witness: a full directory of 10 peers rejects MAC 99, and a
one-entry directory holding number 5 at MAC 1 appends number 5 arriving
from MAC 2 while the lookup of 5 stays on MAC 1. -/
theorem c6_upsert_mac_keyed_capacity_and_stale_witness :
    (∀ p ∈ [(⟨0, 0, true⟩ : PeerInfo), ⟨1, 1, true⟩, ⟨2, 2, true⟩, ⟨3, 3, true⟩,
        ⟨4, 4, true⟩, ⟨5, 5, true⟩, ⟨6, 6, true⟩, ⟨7, 7, true⟩, ⟨8, 8, true⟩,
        ⟨9, 9, true⟩], p.macAddress ≠ 99)
    ∧ addPeerByMac true 99 42 [(⟨0, 0, true⟩ : PeerInfo), ⟨1, 1, true⟩, ⟨2, 2, true⟩,
        ⟨3, 3, true⟩, ⟨4, 4, true⟩, ⟨5, 5, true⟩, ⟨6, 6, true⟩, ⟨7, 7, true⟩,
        ⟨8, 8, true⟩, ⟨9, 9, true⟩]
        = [(⟨0, 0, true⟩ : PeerInfo), ⟨1, 1, true⟩, ⟨2, 2, true⟩, ⟨3, 3, true⟩,
           ⟨4, 4, true⟩, ⟨5, 5, true⟩, ⟨6, 6, true⟩, ⟨7, 7, true⟩, ⟨8, 8, true⟩,
           ⟨9, 9, true⟩]
    ∧ findPeer 5 (addPeerByMac true 2 5 [(⟨5, 1, true⟩ : PeerInfo)])
        = some ⟨5, 1, true⟩ := by
  refine ⟨by decide, ?_, ?_⟩
  · exact (c6_upsert_mac_keyed_capacity_and_stale _ 99 42 true (by decide)).1 (by decide)
  · exact ((c6_upsert_mac_keyed_capacity_and_stale [(⟨5, 1, true⟩ : PeerInfo)] 2 5 true
      (by decide)).2 (by decide)).2 ⟨5, 1, true⟩ rfl

/-- C7: a debounced returned-to-rest (HIGH) edge of the active line
while the decoder is dialing with pulse count 1 ≤ n ≤ 10 latches the
decoded digit n % 10 (10 pulses give 0), marks it ready immediately, and
leaves the dialing state; with a zero counter no digit is emitted and
the decoder still returns to rest. -/
theorem c7_rest_edge_decodes_count_mod_ten (r : RotaryState) (now : Nat)
    (hdial : r.isDialing = true) (hlast : r.lastDialState = false)
    (hdb : ¬ now - r.lastDialDebounce < DIAL_DEBOUNCE_MS) :
    (1 ≤ r.pulseCount ∧ r.pulseCount ≤ 10 →
        (onDialInterrupt now true r).digitReady = true
        ∧ (onDialInterrupt now true r).lastDialedDigit = (r.pulseCount : Int) % 10
        ∧ (onDialInterrupt now true r).isDialing = false)
    ∧ (r.pulseCount = 0 →
        (onDialInterrupt now true r).digitReady = r.digitReady
        ∧ (onDialInterrupt now true r).isDialing = false) := by
  obtain ⟨pc, isd, dr, ld, dt, lds, ldb⟩ := r
  simp only at hdial hlast hdb
  subst hdial hlast
  constructor
  · rintro ⟨h1, h10⟩
    simp only at h1 h10
    have hpos : 0 < pc := h1
    refine ⟨by simp [onDialInterrupt, hdb, hpos], ?_, by simp [onDialInterrupt, hdb, hpos]⟩
    simp only [onDialInterrupt, if_neg hdb]
    simp [hpos]
    split <;> omega
  · intro h0
    simp only at h0
    simp [onDialInterrupt, hdb, h0]

/-- C7 witness: 7 accumulated pulses on a rest edge at t = 50 ms give
digit 7 immediately; 10 pulses give digit 0; a zero counter emits
nothing. -/
theorem c7_rest_edge_decodes_count_mod_ten_witness :
    (¬ (50 : Nat) - 0 < DIAL_DEBOUNCE_MS)
    ∧ ((onDialInterrupt 50 true ⟨7, true, false, -1, 0, false, 0⟩).digitReady = true
        ∧ (onDialInterrupt 50 true ⟨7, true, false, -1, 0, false, 0⟩).lastDialedDigit
            = ((7 : Nat) : Int) % 10
        ∧ (onDialInterrupt 50 true ⟨7, true, false, -1, 0, false, 0⟩).isDialing = false)
    ∧ ((onDialInterrupt 50 true ⟨10, true, false, -1, 0, false, 0⟩).lastDialedDigit
        = ((10 : Nat) : Int) % 10)
    ∧ ((onDialInterrupt 50 true ⟨0, true, false, -1, 0, false, 0⟩).digitReady = false) := by
  refine ⟨by decide, ?_, ?_, ?_⟩
  · exact (c7_rest_edge_decodes_count_mod_ten ⟨7, true, false, -1, 0, false, 0⟩ 50
      rfl rfl (by decide)).1 ⟨by decide, by decide⟩
  · exact ((c7_rest_edge_decodes_count_mod_ten ⟨10, true, false, -1, 0, false, 0⟩ 50
      rfl rfl (by decide)).1 ⟨by decide, by decide⟩).2.1
  · exact ((c7_rest_edge_decodes_count_mod_ten ⟨0, true, false, -1, 0, false, 0⟩ 50
      rfl rfl (by decide)).2 rfl).1

/-- C8 (counterexample): the raw hook line leaves its stable LOW level
at t = 100, is sampled HIGH at t = 100, 125 and 150 — held for exactly
the 50 ms debounce window — and returns LOW at t = 151.  The debouncer
commits a level only after strictly more than 50 ms (`>` in the code),
so this change held for the full window produces zero edges, where the
claim promises exactly one. -/
theorem c8_held_exactly_window_yields_no_edge_cex :
    (hookRun ⟨false, false, 0⟩ [(100, true), (125, true), (150, true), (151, false)]).2 = []
    ∧ 150 - 100 = debounceDelay := by decide

theorem hookStep_same_level (L : Bool) (t u : Nat) :
    hookStep u L ⟨L, L, t⟩ = (⟨L, L, t⟩, none) := by
  simp [hookStep]

theorem hookRun_stable (L : Bool) (t : Nat) (ts : List Nat) :
    hookRun ⟨L, L, t⟩ (ts.map fun u => (u, L)) = (⟨L, L, t⟩, []) := by
  induction ts with
  | nil => rfl
  | cons u ts ih => simp [hookRun, hookStep_same_level, ih]

theorem hookStep_first_change (L L' : Bool) (t a : Nat) (hne : L' ≠ L) :
    hookStep a L' ⟨L, L, t⟩ = (⟨L, L', a⟩, none) := by
  simp [hookStep, hne]

theorem hookStep_pending_unexpired (L L' : Bool) (a u : Nat) (hu : u - a ≤ 50) :
    hookStep u L' ⟨L, L', a⟩ = (⟨L, L', a⟩, none) := by
  have h1 : ¬ (debounceDelay < u - a) := by
    simp only [debounceDelay]
    omega
  simp [hookStep, h1]

theorem hookRun_pending_unexpired (L L' : Bool) (a : Nat) (ts : List Nat)
    (hts : ∀ u ∈ ts, u - a ≤ 50) :
    hookRun ⟨L, L', a⟩ (ts.map fun u => (u, L')) = (⟨L, L', a⟩, []) := by
  induction ts with
  | nil => rfl
  | cons u ts ih =>
    have h50 : u - a ≤ 50 := hts u (by simp)
    have ih' := ih fun v hv => hts v (List.mem_cons_of_mem _ hv)
    simp [hookRun, hookStep_pending_unexpired L L' a u h50, ih']

theorem hookStep_revert (L L' : Bool) (a t : Nat) (hne : L ≠ L') :
    hookStep t L ⟨L, L', a⟩ = (⟨L, L, t⟩, none) := by
  simp [hookStep, hne]

theorem hookStep_edge (L L' : Bool) (a t : Nat) (hne : L' ≠ L)
    (ht : debounceDelay < t - a) :
    hookStep t L' ⟨L, L', a⟩ = (⟨L', L', a⟩, some L') := by
  simp [hookStep, hne, ht]

theorem hookRun_back_to_stable_edges (L L' : Bool) (a : Nat) (ts : List Nat)
    (hne : L ≠ L') :
    (hookRun ⟨L, L', a⟩ (ts.map fun u => (u, L))).2 = [] := by
  cases ts with
  | nil => rfl
  | cons t ts => simp [hookRun, hookStep_revert L L' a t hne, hookRun_stable]

theorem hookRun_cons (d : HookDebounce) (t : Nat) (lvl : Bool) (rest : List (Nat × Bool)) :
    hookRun d ((t, lvl) :: rest)
      = ((hookRun (hookStep t lvl d).1 rest).1,
         (hookStep t lvl d).2.toList ++ (hookRun (hookStep t lvl d).1 rest).2) := rfl

theorem hookRun_append (d : HookDebounce) (xs ys : List (Nat × Bool)) :
    hookRun d (xs ++ ys)
      = ((hookRun (hookRun d xs).1 ys).1,
         (hookRun d xs).2 ++ (hookRun (hookRun d xs).1 ys).2) := by
  induction xs generalizing d with
  | nil => simp [hookRun]
  | cons x xs ih =>
    obtain ⟨t, lvl⟩ := x
    simp [hookRun, ih]

/-- C8 (amended): starting from a stable level `L`, (i) a flicker to
`L'` whose samples all lie strictly inside the 50 ms debounce window
after the departure at time `a` — followed by a return to `L` — yields
zero stable-transition edges; and (ii) a change to `L'` still present at
a sample strictly more than 50 ms after the departure yields exactly one
edge.  The code commits only after strictly more than the window
(`millis() - lastDebounceTime > debounceDelay`), so a change held for
exactly the window yields no edge. -/
theorem c8_flicker_suppressed_and_held_change_one_edge (L L' : Bool) (t0 a tstar : Nat)
    (pre flickTail post tail1 tail2 : List Nat)
    (hne : L ≠ L')
    (hflick : ∀ u ∈ flickTail, u - a < 50)
    (htail1 : ∀ u ∈ tail1, u - a ≤ 50)
    (hpast : 50 < tstar - a) :
    (hookRun ⟨L, L, t0⟩
        (pre.map (fun u => (u, L))
          ++ ((a, L') :: (flickTail.map (fun u => (u, L'))
                ++ post.map (fun u => (u, L)))))).2 = []
    ∧ (hookRun ⟨L, L, t0⟩
        ((a, L') :: (tail1.map (fun u => (u, L'))
          ++ ((tstar, L') :: tail2.map (fun u => (u, L')))))).2 = [L'] := by
  have hne' : L' ≠ L := fun h => hne h.symm
  constructor
  · simp only [hookRun_append, hookRun_stable, hookRun_cons,
      hookStep_first_change L L' t0 a hne',
      hookRun_pending_unexpired L L' a flickTail
        (fun u hu => Nat.le_of_lt (hflick u hu))]
    simp [hookRun_back_to_stable_edges L L' a post hne]
  · simp only [hookRun_cons, hookStep_first_change L L' t0 a hne', hookRun_append,
      hookRun_pending_unexpired L L' a tail1 htail1,
      hookStep_edge L L' a tstar hne' (by simpa [debounceDelay] using hpast),
      hookRun_stable]
    simp

/-- C8 witness: a 20 ms flicker produces no edge; a change at t = 100
still present at t = 151 produces exactly one edge. -/
theorem c8_flicker_suppressed_and_held_change_one_edge_witness :
    (false ≠ true)
    ∧ (∀ u ∈ [120], u - 100 < 50)
    ∧ (∀ u ∈ [130, 150], u - 100 ≤ 50)
    ∧ (50 < 151 - 100)
    ∧ (hookRun ⟨false, false, 0⟩
        ([10, 20].map (fun u => (u, false))
          ++ ((100, true) :: ([120].map (fun u => (u, true))
                ++ [200, 300].map (fun u => (u, false)))))).2 = []
    ∧ (hookRun ⟨false, false, 0⟩
        ((100, true) :: ([130, 150].map (fun u => (u, true))
          ++ ((151, true) :: [180].map (fun u => (u, true)))))).2 = [true] := by
  have h := c8_flicker_suppressed_and_held_change_one_edge false true 0 100 151
    [10, 20] [120] [200, 300] [130, 150] [180] (by decide) (by decide) (by decide) (by decide)
  exact ⟨by decide, by decide, by decide, by decide, h.1, h.2⟩

end RetroBell
